import Mathlib

/-!
Verification of `reload.go` (package reload): a shallow embedding of the
debounced self-reload watcher.

The embedding models:
  * fsnotify events (`Op`, `Event`, `Event.has`) and the event-loop goroutine
    body of `Do` (lines 115-144) as a function from a finite trace of channel
    items to the list of observable actions it performs;
  * the per-path debounce timer (`stoppedTimer` + `Timer.Reset(100ms)`) as an
    `Option Nat` deadline evolving over timestamped reset requests;
  * the setup phase of `Do` (lines 73-163): watcher creation, `self()`
    resolution, validation of additional directories, goroutine spawn, and the
    `watcher.Add` loop, with the OS/fsnotify collaborators (filepath.Abs,
    os.Stat, filepath.Dir, watcher.Add) supplied as oracles in `DoEnv`;
  * `Exec` (lines 169-191) as a function from process state to the ordered
    list of steps it performs.

External collaborators (path resolution, stat, the notification source) are
parameters, matching the spec's interface-only treatment of them; everything
else is transcribed from the Go source.
-/

namespace Reload

/-- Operation kind of an fsnotify event (fsnotify.Op bits). -/
inductive Op where
  | Create
  | Write
  | Remove
  | Rename
  | Chmod
deriving DecidableEq, Repr

/-- An fsnotify event: a path and the set of operation bits.
Transcribes fsnotify.Event { Name string; Op Op }. -/
structure Event where
  name : String
  ops : List Op
deriving DecidableEq, Repr

/-- Transcribes `event.Has(op)`: the event's bitmask contains the bit. -/
def Event.has (e : Event) (o : Op) : Bool :=
  e.ops.contains o

/-- One item received by the event-loop `select` (reload.go lines 117-126):
a value from `watcher.Errors` or `watcher.Events`, or the observation that
one of those channels is closed (`ok == false`). -/
inductive Item where
  | errMsg (msg : String)
  | errClosed
  | ev (e : Event)
  | evClosed
deriving DecidableEq, Repr

/-- An observable action of the event-loop goroutine. `signalDone` is in the
action vocabulary because `Do` blocks on `<-done` (line 161) and could only
return if some action sent on that channel; the transcribed loop body shows
which actions actually occur. -/
inductive LoopAction where
  | logErr (msg : String)
  | resetTimer (path : String)
  | loopReturn
  | signalDone
deriving DecidableEq, Repr

/-- Transcribes `strings.HasPrefix(s, pre)`: `s` begins with the raw string
`pre` (character-wise, which for complete strings coincides with Go's
byte-wise test). -/
def goStartsWith (s pre : String) : Bool :=
  pre.data.isPrefixOf s.data

/-- Transcribes the event branch of the loop (reload.go lines 128-141):
qualify on Write/Create, reset `timers[binSelf]` when the name equals
`binSelf`, then reset `timers[a.path]` for every additional directory whose
canonical path is a string prefix of the event name. -/
def eventActions (binSelf : String) (additional : List String) (e : Event) :
    List LoopAction :=
  if e.has Op.Write || e.has Op.Create then
    (if e.name == binSelf then [LoopAction.resetTimer binSelf] else [])
      ++ (additional.filter (fun a => goStartsWith e.name a)).map
          LoopAction.resetTimer
  else
    []

/-- Transcribes the goroutine body of `Do` (reload.go lines 115-144) over a
finite trace of received items: log errors and continue, return when either
channel closes, dispatch events through `eventActions`. -/
def loopRun (binSelf : String) (additional : List String) :
    List Item → List LoopAction
  | [] => []
  | Item.errMsg m :: rest =>
      LoopAction.logErr ("reload error: " ++ m) :: loopRun binSelf additional rest
  | Item.errClosed :: _ => [LoopAction.loopReturn]
  | Item.ev e :: rest =>
      eventActions binSelf additional e ++ loopRun binSelf additional rest
  | Item.evClosed :: _ => [LoopAction.loopReturn]

/-- The channel `done` (reload.go line 114) is received from at line 161;
`Do` returns (line 162) only after that receive completes, which requires a
send on `done` by the goroutine. Whether the goroutine ever sends is read off
its action trace. -/
def doReturnsAfterSetup (binSelf : String) (additional : List String)
    (trace : List Item) : Bool :=
  (loopRun binSelf additional trace).contains LoopAction.signalDone

/-- Debounce timer semantics for one watched path, transcribing
`stoppedTimer` (reload.go lines 193-197) and `Reset(100 * time.Millisecond)`
(lines 134, 139): the state is the pending deadline (`none` = stopped, the
initial state); each qualifying event at time `t` replaces the pending
deadline with `t + 100`; the timer fires when its deadline arrives before the
next reset. Returns the list of fire times for reset requests at the given
(ascending) times. -/
def debounceFires : Option Nat → List Nat → List Nat
  | none, [] => []
  | some d, [] => [d]
  | none, t :: rest => debounceFires (some (t + 100)) rest
  | some d, t :: rest =>
      if d ≤ t then
        d :: debounceFires (some (t + 100)) rest
      else
        debounceFires (some (t + 100)) rest

/-- A burst: timestamps are ascending and each successive event arrives
within 100 ms of its predecessor, so no deadline elapses inside the burst. -/
def IsBurst (ts : List Nat) : Prop :=
  ts.Chain' (fun a b => a ≤ b ∧ b < a + 100)

/-- One step of the `Exec` restart protocol (reload.go lines 169-191). -/
inductive ExecStep where
  | closeWatch
  | runHook
  | execImage (name : String) (argv : List String) (env : List String)
  | panicked (msg : String)
deriving DecidableEq, Repr

/-- Process-wide state read by `Exec`: the cached `binSelf` (empty string =
unset, as in Go), the result `self()` would produce if called, whether
`closeWatcher` and `OnExec` are set, the (swallowed) error of `closeWatcher`,
the outcome of `syscall.Exec` (`some msg` = it returned an error), and the
captured `os.Args[1:]` and `os.Environ()`. -/
structure ExecEnv where
  binSelf : String
  selfResult : Except String String
  closeWatcherSet : Bool
  closeErr : Option String
  onExecSet : Bool
  execErr : Option String
  argsTail : List String
  environ : List String
deriving Repr

/-- Step 1 of `Exec` (reload.go lines 170-177): use the cached `binSelf`, or
resolve fresh via `self()` when the cache is the empty string. -/
def resolveExecName (st : ExecEnv) : Except String String :=
  if st.binSelf == "" then st.selfResult else Except.ok st.binSelf

/-- Transcribes `Exec` (reload.go lines 169-191) as the ordered list of steps
it performs: resolve the executable name (panicking if fresh resolution
fails), close the watcher if set (its error ignored), run the `OnExec` hook
if set, call `syscall.Exec` with argv `execName :: os.Args[1:]` and the full
environment, and panic if that call returns an error. -/
def ExecRun (st : ExecEnv) : List ExecStep :=
  match resolveExecName st with
  | Except.error e =>
      [ExecStep.panicked ("cannot restart: cannot find self: " ++ e)]
  | Except.ok execName =>
      (if st.closeWatcherSet then [ExecStep.closeWatch] else [])
        ++ (if st.onExecSet then [ExecStep.runHook] else [])
        ++ [ExecStep.execImage execName (execName :: st.argsTail) st.environ]
        ++ (match st.execErr with
            | some e => [ExecStep.panicked ("cannot restart: " ++ e)]
            | none => [])

/-- An additional directory passed to `Do` (the `dir` struct, reload.go
lines 54-57); the callback's body is irrelevant to control flow and elided. -/
structure dirSpec where
  path : String
deriving DecidableEq, Repr

/-- Oracles for the external collaborators `Do` consults during setup:
`fsnotify.NewWatcher`, `self()`, `filepath.Abs`, `os.Stat` (error, or
`IsDir()`), `filepath.Dir`, and `watcher.Add`. -/
structure DoEnv where
  newWatcherErr : Option String
  selfResult : Except String String
  absResult : String → Except String String
  statResult : String → Except String Bool
  dirOf : String → String
  addResult : String → Option String

/-- Outcome of running `Do`'s setup phase: the error it returned (`none`
means setup succeeded and `Do` blocked at `<-done`), the directories whose
`watcher.Add` succeeded before `Do` finished or bailed, and whether the
event-loop goroutine had been spawned by then. -/
structure DoOutcome where
  result : Option String
  watchesAdded : List String
  loopSpawned : Bool
deriving DecidableEq, Repr

/-- Transcribes the validation loop over additional directories (reload.go
lines 93-112): canonicalize via `filepath.Abs`, `os.Stat`, require a
directory; the first failure returns the corresponding error. On success,
yields the canonical paths in order. -/
def validateAdditional (env : DoEnv) : List dirSpec → Except String (List String)
  | [] => Except.ok []
  | a :: rest =>
      match env.absResult a.path with
      | Except.error e =>
          Except.error ("reload.Do: cannot get absolute path to \"" ++ a.path
            ++ "\": " ++ e)
      | Except.ok path =>
          match env.statResult path with
          | Except.error e => Except.error ("reload.Do: " ++ e)
          | Except.ok isDir =>
              if !isDir then
                Except.error ("reload.Do: not a directory: \"" ++ a.path
                  ++ "\"; can only watch directories")
              else
                (validateAdditional env rest).map (fun ps => path :: ps)

/-- Transcribes the `watcher.Add` loop (reload.go lines 146-150): add each
directory in order, stopping with an error at the first failure; returns the
error (if any) and the directories added so far. -/
def addWatches (env : DoEnv) (added : List String) :
    List String → Option String × List String
  | [] => (none, added)
  | d :: rest =>
      match env.addResult d with
      | some e =>
          (some ("reload.Do: cannot add \"" ++ d ++ "\" to watcher: " ++ e),
           added)
      | none => addWatches env (added ++ [d]) rest

/-- A directory passed to `Do` is invalid when `filepath.Abs` fails, `os.Stat`
fails (e.g. the path does not exist), or the path is not a directory. -/
def InvalidDir (env : DoEnv) (a : dirSpec) : Prop :=
  (∃ e, env.absResult a.path = Except.error e)
    ∨ (∃ path, env.absResult a.path = Except.ok path
        ∧ ((∃ e, env.statResult path = Except.error e)
            ∨ env.statResult path = Except.ok false))

/-- Transcribes the setup phase of `Do` (reload.go lines 73-163): create the
watcher, resolve `self()`, validate additional directories, spawn the event
loop goroutine, then add a watch on `filepath.Dir(binSelf)` followed by each
canonical additional directory. Setup errors return before the goroutine is
spawned; an `Add` failure returns after it. On success `Do` blocks forever at
`<-done` (result `none`). -/
def DoSetup (env : DoEnv) (additional : List dirSpec) : DoOutcome :=
  match env.newWatcherErr with
  | some e => ⟨some ("reload.Do: cannot setup watcher: " ++ e), [], false⟩
  | none =>
      match env.selfResult with
      | Except.error e => ⟨some e, [], false⟩
      | Except.ok binSelf =>
          match validateAdditional env additional with
          | Except.error e => ⟨some e, [], false⟩
          | Except.ok paths =>
              match addWatches env [] (env.dirOf binSelf :: paths) with
              | (some e, added) => ⟨some e, added, true⟩
              | (none, added) => ⟨none, added, true⟩

/-! ## Theorems -/

/-- A reset arriving within 100 ms of the previous one finds the pending
deadline still in the future, so the timer does not fire in between: the
whole burst collapses to one fire, 100 ms after its last event. -/
theorem debounceFires_pending_burst (rest : List Nat) :
    ∀ t : Nat, IsBurst (t :: rest) →
      debounceFires (some (t + 100)) rest
        = [(t :: rest).getLast (List.cons_ne_nil t rest) + 100] := by
  induction rest with
  | nil => intro t _; rfl
  | cons u rs ih =>
      intro t hb
      rcases List.chain'_cons.mp hb with ⟨⟨_, hlt⟩, hb'⟩
      have hnot : ¬ t + 100 ≤ u := by omega
      simp only [debounceFires, if_neg hnot]
      rw [ih u hb']
      rfl

/-- C1: every qualifying event on a watched path re-arms that path's single
debounce timer (state: one optional deadline) with a fresh deadline 100 ms
later, superseding the pending one; a burst of such events, each arriving
within 100 ms of its predecessor, produces exactly one fire, 100 ms after the
last event of the burst. -/
theorem burst_single_fire (t : Nat) (rest : List Nat)
    (hb : IsBurst (t :: rest)) :
    debounceFires none (t :: rest)
      = [(t :: rest).getLast (List.cons_ne_nil t rest) + 100] := by
  show debounceFires (some (t + 100)) rest = _
  exact debounceFires_pending_burst rest t hb

/-- Witness for C1: two writes 10 ms apart are a burst and yield the single
fire time 110 (100 ms after the second event). -/
theorem burst_single_fire_witness :
    IsBurst [0, 10] ∧ debounceFires none [0, 10] = [110] :=
  ⟨by constructor <;> simp, burst_single_fire 0 [10] (by constructor <;> simp)⟩

/-- C3: an event whose bitmask has neither the Write nor the Create bit never
arms any debounce timer: the loop body performs no action for it. -/
theorem nonqualifying_arms_no_timer (b : String) (adds : List String)
    (e : Event) (hw : e.has Op.Write = false) (hc : e.has Op.Create = false) :
    eventActions b adds e = [] := by
  simp [eventActions, hw, hc]

/-- Witness for C3: a chmod event on a watched directory arms nothing. -/
theorem nonqualifying_arms_no_timer_witness :
    Event.has ⟨"/d/x", [Op.Chmod]⟩ Op.Write = false
      ∧ Event.has ⟨"/d/x", [Op.Chmod]⟩ Op.Create = false
      ∧ eventActions "/b" ["/d"] ⟨"/d/x", [Op.Chmod]⟩ = [] :=
  ⟨rfl, rfl, nonqualifying_arms_no_timer "/b" ["/d"] ⟨"/d/x", [Op.Chmod]⟩ rfl rfl⟩

/-- Counterexample for C9: a qualifying event whose path equals the
executable path and also extends an additional directory arms BOTH timers;
the executable match does not exclude the additional directory's callback,
contrary to the claim that it alone determines the resulting action. -/
theorem exec_match_not_exclusive :
    eventActions "/a/tpl/bin" ["/a/tpl"] ⟨"/a/tpl/bin", [Op.Write]⟩
      = [LoopAction.resetTimer "/a/tpl/bin", LoopAction.resetTimer "/a/tpl"] := by
  decide

/-- C9 (amended): the executable match is checked first — when a qualifying
event's path equals `binSelf`, the restart timer's reset is the first action
— but every additional directory matching by string prefix has its callback
timer armed as well. -/
theorem exec_match_checked_first (b : String) (adds : List String) (e : Event)
    (hq : (e.has Op.Write || e.has Op.Create) = true) (hn : e.name = b) :
    eventActions b adds e
      = LoopAction.resetTimer b
          :: (adds.filter (fun a => goStartsWith e.name a)).map
              LoopAction.resetTimer := by
  simp [eventActions, hq, hn]

/-- Witness for C9's amended theorem at the overlap input. -/
theorem exec_match_checked_first_witness :
    eventActions "/a/tpl/bin" ["/a/tpl"] ⟨"/a/tpl/bin", [Op.Write]⟩
      = LoopAction.resetTimer "/a/tpl/bin"
          :: (["/a/tpl"].filter
                (fun a => goStartsWith "/a/tpl/bin" a)).map LoopAction.resetTimer :=
  exec_match_checked_first "/a/tpl/bin" ["/a/tpl"] ⟨"/a/tpl/bin", [Op.Write]⟩
    rfl rfl

/-- C10: matching a qualifying event against an additional directory is a raw
string-prefix test (strings.HasPrefix) with no separator check: any
registered directory that is a string prefix of the event's path gets its
timer armed. -/
theorem additional_match_raw_string (b : String) (adds : List String)
    (e : Event) (a : String) (ha : a ∈ adds)
    (hq : (e.has Op.Write || e.has Op.Create) = true)
    (hpre : goStartsWith e.name a = true) :
    LoopAction.resetTimer a ∈ eventActions b adds e := by
  simp only [eventActions, hq, if_true]
  exact List.mem_append_right _
    (List.mem_map_of_mem _ (List.mem_filter.mpr ⟨ha, hpre⟩))

/-- Witness for C10: event path "/a/tplX/f" is not inside the watched
directory "/a/tpl", yet the raw prefix test arms that directory's timer. -/
theorem additional_match_raw_string_witness :
    LoopAction.resetTimer "/a/tpl"
      ∈ eventActions "/b" ["/a/tpl"] ⟨"/a/tplX/f", [Op.Write]⟩ :=
  additional_match_raw_string "/b" ["/a/tpl"] ⟨"/a/tplX/f", [Op.Write]⟩
    "/a/tpl" (List.mem_singleton.mpr rfl) rfl rfl

/-- The event branch emits only timer resets: never a send on `done`. -/
theorem eventActions_no_signal (b : String) (adds : List String) (e : Event) :
    LoopAction.signalDone ∉ eventActions b adds e := by
  unfold eventActions
  split
  · intro hmem
    rcases List.mem_append.mp hmem with h | h
    · split at h <;> simp_all
    · rcases List.mem_map.mp h with ⟨_, _, h⟩
      exact LoopAction.noConfusion h
  · simp

/-- The goroutine body never sends on `done` along any trace. -/
theorem loopRun_no_signal (b : String) (adds : List String) :
    ∀ trace : List Item, LoopAction.signalDone ∉ loopRun b adds trace := by
  intro trace
  induction trace with
  | nil => simp [loopRun]
  | cons it rest ih =>
      cases it with
      | errMsg m => simp [loopRun, ih]
      | errClosed => simp [loopRun]
      | ev e =>
          simp only [loopRun, List.mem_append]
          rintro (h | h)
          · exact eventActions_no_signal b adds e h
          · exact ih h
      | evClosed => simp [loopRun]

/-- Counterexample for C2: on a trace whose events channel closes
immediately, the stream has closed, yet `Do` does not return (nothing ever
signals the `done` channel it blocks on). -/
theorem stream_close_do_blocks :
    Item.evClosed ∈ [Item.evClosed]
      ∧ doReturnsAfterSetup "/b" [] [Item.evClosed] = false := by
  constructor
  · exact List.mem_singleton.mpr rfl
  · rfl

/-- C2 (amended): closing either channel of the notification stream makes
the event-loop goroutine's run return, but `Do` itself never returns after
successful setup — it blocks forever on the never-signaled `done` channel —
whether or not the stream closes. -/
theorem stream_close_loop_returns (b : String) (adds : List String)
    (trace : List Item) :
    doReturnsAfterSetup b adds trace = false
      ∧ (Item.errClosed ∈ trace ∨ Item.evClosed ∈ trace →
          LoopAction.loopReturn ∈ loopRun b adds trace) := by
  constructor
  · have hno := loopRun_no_signal b adds trace
    simpa [doReturnsAfterSetup] using hno
  · intro hclosed
    induction trace with
    | nil => simp at hclosed
    | cons it rest ih =>
        cases it with
        | errMsg m =>
            have : Item.errClosed ∈ rest ∨ Item.evClosed ∈ rest := by
              simpa using hclosed
            simpa [loopRun] using ih this
        | errClosed => simp [loopRun]
        | ev e =>
            have : Item.errClosed ∈ rest ∨ Item.evClosed ∈ rest := by
              simpa using hclosed
            simp only [loopRun, List.mem_append]
            exact Or.inr (ih this)
        | evClosed => simp [loopRun]

/-- Witness for C2's amended theorem: on the immediately-closing trace, `Do`
does not return while the goroutine's loop does. -/
theorem stream_close_loop_returns_witness :
    doReturnsAfterSetup "/b" [] [Item.evClosed] = false
      ∧ LoopAction.loopReturn ∈ loopRun "/b" [] [Item.evClosed] :=
  ⟨(stream_close_loop_returns "/b" [] [Item.evClosed]).1,
   (stream_close_loop_returns "/b" [] [Item.evClosed]).2
     (Or.inr (List.mem_singleton.mpr rfl))⟩

/-- C4: whenever the executable path resolves, `Exec` performs, in strict
order: close the watcher (if set), run the pre-exec hook (if set), then
replace the image — with each step present regardless of the others'
outcomes, the watcher-close error swallowed (the run is unchanged by it), and
step 1 using the cached path when non-empty, a fresh `self()` resolution
otherwise. -/
theorem exec_protocol_order (st : ExecEnv) (name : String)
    (h : resolveExecName st = Except.ok name) :
    ExecRun st
        = (if st.closeWatcherSet then [ExecStep.closeWatch] else [])
            ++ (if st.onExecSet then [ExecStep.runHook] else [])
            ++ [ExecStep.execImage name (name :: st.argsTail) st.environ]
            ++ (match st.execErr with
                | some e => [ExecStep.panicked ("cannot restart: " ++ e)]
                | none => [])
      ∧ (∀ c, ExecRun { st with closeErr := c } = ExecRun st)
      ∧ (st.binSelf ≠ "" → name = st.binSelf)
      ∧ (st.binSelf = "" → st.selfResult = Except.ok name) := by
  refine ⟨by unfold ExecRun; rw [h], ?_, ?_, ?_⟩
  · intro c
    simp [ExecRun, resolveExecName]
  · intro hne
    unfold resolveExecName at h
    rw [if_neg (by simpa using hne)] at h
    exact (Except.ok.inj h).symm
  · intro heq
    unfold resolveExecName at h
    rwa [if_pos (by simp [heq])] at h

/-- Witness for C4: a fully populated state runs close-watch, hook, then
image replacement, in that order. -/
theorem exec_protocol_order_witness :
    ExecRun ⟨"/bin/x", Except.ok "/bin/x", true, some "boom", true, none,
        ["-v"], ["E=1"]⟩
      = [ExecStep.closeWatch, ExecStep.runHook,
         ExecStep.execImage "/bin/x" ["/bin/x", "-v"] ["E=1"]] :=
  (exec_protocol_order ⟨"/bin/x", Except.ok "/bin/x", true, some "boom", true,
    none, ["-v"], ["E=1"]⟩ "/bin/x" rfl).1

/-- C5: the image-replacement step receives argv whose head is the resolved
executable path and whose tail is `os.Args[1:]` unchanged, together with the
environment `os.Environ()` unmodified. -/
theorem exec_argv_env (st : ExecEnv) (name : String)
    (h : resolveExecName st = Except.ok name) :
    ExecStep.execImage name (name :: st.argsTail) st.environ ∈ ExecRun st := by
  unfold ExecRun
  rw [h]
  simp

/-- Witness for C5 at a concrete state. -/
theorem exec_argv_env_witness :
    ExecStep.execImage "/bin/y" ["/bin/y", "a", "b"] ["HOME=/r", "T=1"]
      ∈ ExecRun ⟨"/bin/y", Except.ok "/bin/y", false, none, false, none,
          ["a", "b"], ["HOME=/r", "T=1"]⟩ :=
  exec_argv_env ⟨"/bin/y", Except.ok "/bin/y", false, none, false, none,
    ["a", "b"], ["HOME=/r", "T=1"]⟩ "/bin/y" rfl

/-- C6: with an empty cached path and failing fresh resolution, `Exec` only
panics with a diagnostic naming the failure; and when the OS image
replacement itself returns an error, the run's final step is a panic with a
diagnostic — `Exec` never returns to normal operation. -/
theorem exec_failure_panics :
    (∀ (st : ExecEnv) (e : String), st.binSelf = "" →
        st.selfResult = Except.error e →
        ExecRun st
          = [ExecStep.panicked ("cannot restart: cannot find self: " ++ e)])
      ∧ (∀ (st : ExecEnv) (name e : String),
          resolveExecName st = Except.ok name → st.execErr = some e →
          (ExecRun st).getLast?
            = some (ExecStep.panicked ("cannot restart: " ++ e))) := by
  constructor
  · intro st e hb hs
    unfold ExecRun resolveExecName
    rw [if_pos (by simp [hb]), hs]
  · intro st name e h hexec
    unfold ExecRun
    rw [h, hexec]
    cases hc : st.closeWatcherSet <;> cases ho : st.onExecSet <;>
      simp [hc, ho, List.getLast?]

/-- Witness for C6: both failure modes at concrete states. -/
theorem exec_failure_panics_witness :
    ExecRun ⟨"", Except.error "nope", false, none, false, none, [], []⟩
        = [ExecStep.panicked "cannot restart: cannot find self: nope"]
      ∧ (ExecRun ⟨"/x", Except.ok "/x", false, none, false, some "EACCES",
            [], []⟩).getLast?
          = some (ExecStep.panicked "cannot restart: EACCES") :=
  ⟨exec_failure_panics.1
      ⟨"", Except.error "nope", false, none, false, none, [], []⟩ "nope"
      rfl rfl,
   exec_failure_panics.2
      ⟨"/x", Except.ok "/x", false, none, false, some "EACCES", [], []⟩
      "/x" "EACCES" rfl rfl⟩

/-- Validation of the additional directories fails whenever any entry is
invalid (absolute-path resolution fails, stat fails, or not a directory). -/
theorem validateAdditional_error_of_invalid (env : DoEnv) :
    ∀ adds : List dirSpec, (∃ a ∈ adds, InvalidDir env a) →
      ∃ e, validateAdditional env adds = Except.error e := by
  intro adds
  induction adds with
  | nil => rintro ⟨a, ha, _⟩; simp at ha
  | cons a rest ih =>
      intro hinv
      cases habs : env.absResult a.path with
      | error e =>
          exact ⟨"reload.Do: cannot get absolute path to \"" ++ a.path
              ++ "\": " ++ e,
            by simp [validateAdditional, habs]⟩
      | ok path =>
          cases hstat : env.statResult path with
          | error e =>
              exact ⟨"reload.Do: " ++ e,
                by simp [validateAdditional, habs, hstat]⟩
          | ok isDir =>
              cases isDir with
              | false =>
                  exact ⟨"reload.Do: not a directory: \"" ++ a.path
                      ++ "\"; can only watch directories",
                    by simp [validateAdditional, habs, hstat]⟩
              | true =>
                  have hrest : ∃ b ∈ rest, InvalidDir env b := by
                    rcases hinv with ⟨b, hb, hbinv⟩
                    rcases List.mem_cons.mp hb with rfl | hb'
                    · exfalso
                      rcases hbinv with ⟨e, he⟩ | ⟨p, hp, hbad⟩
                      · rw [habs] at he; exact Except.noConfusion he
                      · rw [habs] at hp
                        cases Except.ok.inj hp
                        rcases hbad with ⟨e, he⟩ | he
                        · rw [hstat] at he; exact Except.noConfusion he
                        · rw [hstat] at he
                          exact Bool.noConfusion (Except.ok.inj he)
                    · exact ⟨b, hb', hbinv⟩
                  rcases ih hrest with ⟨e, he⟩
                  exact ⟨e, by simp [validateAdditional, habs, hstat, he,
                    Except.map]⟩

/-- C7: if any additional directory is invalid (cannot resolve to absolute,
does not exist, or is not a directory), `Do` returns an error with no watch
registered and the event-loop goroutine never spawned. -/
theorem invalid_dir_aborts_setup (env : DoEnv) (adds : List dirSpec)
    (b : String) (hw : env.newWatcherErr = none)
    (hs : env.selfResult = Except.ok b)
    (hinv : ∃ a ∈ adds, InvalidDir env a) :
    (DoSetup env adds).result.isSome = true
      ∧ (DoSetup env adds).watchesAdded = []
      ∧ (DoSetup env adds).loopSpawned = false := by
  rcases validateAdditional_error_of_invalid env adds hinv with ⟨e, he⟩
  unfold DoSetup
  rw [hw, hs, he]
  exact ⟨rfl, rfl, rfl⟩

/-- Witness for C7: a directory whose path resolution fails makes setup
return an error with nothing registered and no goroutine. -/
theorem invalid_dir_aborts_setup_witness :
    (DoSetup
        ⟨none, Except.ok "/bin/x", fun _ => Except.error "absboom",
         fun _ => Except.ok true, fun _ => "/bin", fun _ => none⟩
        [⟨"tpl"⟩]).result.isSome = true
      ∧ (DoSetup
          ⟨none, Except.ok "/bin/x", fun _ => Except.error "absboom",
           fun _ => Except.ok true, fun _ => "/bin", fun _ => none⟩
          [⟨"tpl"⟩]).watchesAdded = []
      ∧ (DoSetup
          ⟨none, Except.ok "/bin/x", fun _ => Except.error "absboom",
           fun _ => Except.ok true, fun _ => "/bin", fun _ => none⟩
          [⟨"tpl"⟩]).loopSpawned = false :=
  invalid_dir_aborts_setup
    ⟨none, Except.ok "/bin/x", fun _ => Except.error "absboom",
     fun _ => Except.ok true, fun _ => "/bin", fun _ => none⟩
    [⟨"tpl"⟩] "/bin/x" rfl rfl
    ⟨⟨"tpl"⟩, List.mem_singleton.mpr rfl, Or.inl ⟨"absboom", rfl⟩⟩

/-- Counterexample for C8: with a failing `watcher.Add`, `Do` returns the
subscription error, but the event-loop goroutine has already been spawned
(it is left running), contrary to the claim. -/
theorem add_failure_leaves_goroutine :
    (DoSetup
        ⟨none, Except.ok "/bin/x", fun p => Except.ok ("/" ++ p),
         fun _ => Except.ok true, fun _ => "/bin",
         fun _ => some "addboom"⟩ []).result
        = some "reload.Do: cannot add \"/bin\" to watcher: addboom"
      ∧ (DoSetup
          ⟨none, Except.ok "/bin/x", fun p => Except.ok ("/" ++ p),
           fun _ => Except.ok true, fun _ => "/bin",
           fun _ => some "addboom"⟩ []).loopSpawned = true :=
  ⟨rfl, rfl⟩

/-- C8 (amended): a failing `watcher.Add` makes `Do` return the subscription
failure as an error, but only after the event-loop goroutine was spawned; the
goroutine is left running and earlier successful watch additions remain. -/
theorem add_failure_returns_error (env : DoEnv) (adds : List dirSpec)
    (b : String) (paths : List String) (e : String) (added : List String)
    (hw : env.newWatcherErr = none) (hs : env.selfResult = Except.ok b)
    (hv : validateAdditional env adds = Except.ok paths)
    (ha : addWatches env [] (env.dirOf b :: paths) = (some e, added)) :
    DoSetup env adds = ⟨some e, added, true⟩ := by
  simp [DoSetup, hw, hs, hv, ha]

/-- Witness for C8's amended theorem: the first `Add` fails; the error is
returned with the goroutine already spawned. -/
theorem add_failure_returns_error_witness :
    DoSetup
        ⟨none, Except.ok "/bin/x", fun p => Except.ok ("/" ++ p),
         fun _ => Except.ok true, fun _ => "/bin",
         fun d => if d == "/tpl" then some "addboom" else none⟩ [⟨"tpl"⟩]
      = ⟨some "reload.Do: cannot add \"/tpl\" to watcher: addboom",
         ["/bin"], true⟩ :=
  add_failure_returns_error
    ⟨none, Except.ok "/bin/x", fun p => Except.ok ("/" ++ p),
     fun _ => Except.ok true, fun _ => "/bin",
     fun d => if d == "/tpl" then some "addboom" else none⟩
    [⟨"tpl"⟩] "/bin/x" ["/tpl"] "reload.Do: cannot add \"/tpl\" to watcher: addboom"
    ["/bin"] rfl rfl rfl rfl

end Reload
